import Mathlib

/-!
Verification of the `obscurer` HTTP URL-obscuring library.

The Go sources are shallowly embedded below: `url.URL` becomes the `URL`
structure, `http.Header` becomes an association list, the `sync.Map`-backed
`memoryStore` becomes an association list keyed by path, and the handler
pipeline (`handler.ServeHTTP`, `obscureHeader`, the buffering
`responseWriter`) becomes pure state-passing functions.  Machine integers
are `Nat` with explicit `% 2^32` where overflow matters.
-/

set_option maxRecDepth 10000

/-- Embeds Go `net/url.URL` restricted to the five components the library
touches (`RawQuery` is the `query` field; `Fragment` is `fragment`). -/
structure URL where
  scheme : String
  host : String
  path : String
  query : String
  fragment : String
deriving DecidableEq, Repr

/-- Go `%32` arithmetic: reduce modulo 2^32. -/
def m32 (n : Nat) : Nat := n % 4294967296

/-- 32-bit left rotation of `x` (assumed `< 2^32`) by `s` bits. -/
def rotl32 (x s : Nat) : Nat := (x * 2 ^ s + x / 2 ^ (32 - s)) % 4294967296

/-- 32-bit bitwise complement. -/
def not32 (x : Nat) : Nat := 4294967295 - x

/-- The MD5 sine-derived constant table (RFC 1321, also hardcoded in Go
`crypto/md5`). -/
def md5K : List Nat :=
  [0xd76aa478, 0xe8c7b756, 0x242070db, 0xc1bdceee,
   0xf57c0faf, 0x4787c62a, 0xa8304613, 0xfd469501,
   0x698098d8, 0x8b44f7af, 0xffff5bb1, 0x895cd7be,
   0x6b901122, 0xfd987193, 0xa679438e, 0x49b40821,
   0xf61e2562, 0xc040b340, 0x265e5a51, 0xe9b6c7aa,
   0xd62f105d, 0x02441453, 0xd8a1e681, 0xe7d3fbc8,
   0x21e1cde6, 0xc33707d6, 0xf4d50d87, 0x455a14ed,
   0xa9e3e905, 0xfcefa3f8, 0x676f02d9, 0x8d2a4c8a,
   0xfffa3942, 0x8771f681, 0x6d9d6122, 0xfde5380c,
   0xa4beea44, 0x4bdecfa9, 0xf6bb4b60, 0xbebfbc70,
   0x289b7ec6, 0xeaa127fa, 0xd4ef3085, 0x04881d05,
   0xd9d4d039, 0xe6db99e5, 0x1fa27cf8, 0xc4ac5665,
   0xf4292244, 0x432aff97, 0xab9423a7, 0xfc93a039,
   0x655b59c3, 0x8f0ccc92, 0xffeff47d, 0x85845dd1,
   0x6fa87e4f, 0xfe2ce6e0, 0xa3014314, 0x4e0811a1,
   0xf7537e82, 0xbd3af235, 0x2ad7d2bb, 0xeb86d391]

/-- The MD5 per-step rotation amounts (RFC 1321). -/
def md5S : List Nat :=
  [7, 12, 17, 22, 7, 12, 17, 22, 7, 12, 17, 22, 7, 12, 17, 22,
   5, 9, 14, 20, 5, 9, 14, 20, 5, 9, 14, 20, 5, 9, 14, 20,
   4, 11, 16, 23, 4, 11, 16, 23, 4, 11, 16, 23, 4, 11, 16, 23,
   6, 10, 15, 21, 6, 10, 15, 21, 6, 10, 15, 21, 6, 10, 15, 21]

/-- The MD5 nonlinear function and message-word index for step `i`. -/
def md5FG (i b c d : Nat) : Nat × Nat :=
  if i < 16 then ((b.land c).lor ((not32 b).land d), i)
  else if i < 32 then ((d.land b).lor ((not32 d).land c), (5 * i + 1) % 16)
  else if i < 48 then ((b.xor c).xor d, (3 * i + 5) % 16)
  else (c.xor (b.lor (not32 d)), (7 * i) % 16)

/-- One MD5 step: rotate the working state. -/
def md5Step (m : List Nat) (st : Nat × Nat × Nat × Nat) (i : Nat) :
    Nat × Nat × Nat × Nat :=
  let (a, b, c, d) := st
  let (f, g) := md5FG i b c d
  let tmp := m32 (a + f + (md5K.getD i 0) + (m.getD g 0))
  let bNew := m32 (b + rotl32 tmp (md5S.getD i 0))
  (d, bNew, b, c)

/-- The MD5 compression function over one 16-word block, starting from the
standard initial state. -/
def md5Compress (m : List Nat) : Nat × Nat × Nat × Nat :=
  let init : Nat × Nat × Nat × Nat := (0x67452301, 0xefcdab89, 0x98badcfe, 0x10325476)
  let (a, b, c, d) := (List.range 64).foldl (md5Step m) init
  (m32 (0x67452301 + a), m32 (0xefcdab89 + b), m32 (0x98badcfe + c), m32 (0x10325476 + d))

/-- Serialize a 32-bit word to four little-endian bytes. -/
def word32ToBytesLE (w : Nat) : List Nat :=
  [w % 256, w / 256 % 256, w / 65536 % 256, w / 16777216 % 256]

/-- Assemble four consecutive bytes (little-endian) into a 32-bit word. -/
def bytesToWordsLE (bs : List Nat) : List Nat :=
  match bs with
  | b0 :: b1 :: b2 :: b3 :: rest =>
      (b0 + 256 * b1 + 65536 * b2 + 16777216 * b3) :: bytesToWordsLE rest
  | _ => []

/-- MD5 digest of a message of at most 55 bytes (a single padded block).
The program only ever hashes the empty message, which falls in this range. -/
def md5Digest (msg : List Nat) : List Nat :=
  let padded := msg ++ [0x80] ++ List.replicate (55 - msg.length) 0 ++
    word32ToBytesLE (m32 (msg.length * 8)) ++ [0, 0, 0, 0]
  let (a, b, c, d) := md5Compress (bytesToWordsLE padded)
  word32ToBytesLE a ++ word32ToBytesLE b ++ word32ToBytesLE c ++ word32ToBytesLE d

/-- UTF-8 encoding of one character, as Go `[]byte(string)` produces. -/
def utf8Bytes (c : Char) : List Nat :=
  let n := c.toNat
  if n < 0x80 then [n]
  else if n < 0x800 then [0xc0 + n / 0x40, 0x80 + n % 0x40]
  else if n < 0x10000 then
    [0xe0 + n / 0x1000, 0x80 + n / 0x40 % 0x40, 0x80 + n % 0x40]
  else
    [0xf0 + n / 0x40000, 0x80 + n / 0x1000 % 0x40,
     0x80 + n / 0x40 % 0x40, 0x80 + n % 0x40]

/-- Go `[]byte(s)`: the UTF-8 bytes of a string. -/
def strBytes (s : String) : List Nat := (s.toList.map utf8Bytes).flatten

/-- Embeds Go `hash.Hash.Sum(b)` for the `md5Obscurer`'s hash: `Sum` appends
to `b` the digest of the bytes written to the hash so far, and `md5Obscurer`
never writes to its hash, so the appended digest is the MD5 digest of the
empty message. -/
def goHashSum (b : List Nat) : List Nat := b ++ md5Digest []

/-- One lowercase hexadecimal digit, as Go `fmt.Sprintf("%x", ...)` renders. -/
def hexDigitChar (n : Nat) : Char :=
  if n < 10 then Char.ofNat (48 + n) else Char.ofNat (87 + n)

/-- Go `fmt.Sprintf("%x", bytes)`: two lowercase hex digits per byte. -/
def hexOfBytes (bs : List Nat) : String :=
  String.mk ((bs.map (fun b => [hexDigitChar (b / 16 % 16), hexDigitChar (b % 16)])).flatten)

/-- Go `strings.TrimLeft(s, "/")`: drop all leading slash characters. -/
def trimLeftSlash (s : String) : String :=
  String.mk (s.toList.dropWhile (fun c => c = '/'))

namespace md5Obscurer

/-- Embeds `md5Obscurer.Obscure` (obscure.go): `result := *url` copies the
struct, then only `result.Path` is overwritten with `"/" + fmt.Sprintf("%x",
o.hash.Sum([]byte(strings.TrimLeft(url.Path, "/"))))`; the lazily created
`o.hash` is never written to, so `Sum` appends the trimmed path bytes
followed by the MD5 digest of the empty message. -/
def Obscure (u : URL) : URL :=
  let obscuredPathBytes := goHashSum (strBytes (trimLeftSlash u.path))
  let obscuredPath := hexOfBytes obscuredPathBytes
  { u with path := "/" ++ obscuredPath }

/-- Embeds the caller-visible pointee of the input pointer after
`md5Obscurer.Obscure` returns: the function writes only through `result`
(a copy of `*url`), so the input URL object is left exactly as it was. -/
def ObscureInputAfter (u : URL) : URL := u

end md5Obscurer

/-- Embeds Go `http.Header` restricted to single-valued entries, the only
form the library creates and reads (`Get`/`Set`). -/
def Headers := List (String × String)
deriving DecidableEq

namespace Headers

/-- Go `http.Header.Get`: first value for the key, or `""` when absent. -/
def get (h : Headers) (k : String) : String :=
  match List.find? (fun p => p.1 = k) h with
  | some p => p.2
  | none => ""

/-- Go `http.Header.Set`: replace the entry for the key with a single value. -/
def set (h : Headers) (k v : String) : Headers :=
  (k, v) :: List.filter (fun p => ¬ p.1 = k) h

/-- Go `http.Header.Del`: delete all entries for the key. -/
def del (h : Headers) (k : String) : Headers :=
  List.filter (fun p => ¬ p.1 = k) h

end Headers

/-- The in-memory store contents: the `sync.Map` of `memoryStore`
(store.go), an association of obscured-URL paths to original URL values,
with at most one binding per key (maintained by insert-if-absent). -/
def MemStore := List (String × URL)
deriving DecidableEq

/-- `sync.Map.Load`: the value bound to a key, if any. -/
def memLookup (s : MemStore) (k : String) : Option URL :=
  match List.find? (fun p => p.1 = k) s with
  | some p => some p.2
  | none => none

namespace memoryStore

/-- Embeds `memoryStore.Put` (store.go): insert `*original` under the key
`obscured.Path` only when the key is absent; always returns a nil error
(the second component). -/
def Put (s : MemStore) (obscured original : URL) : MemStore × Option String :=
  match memLookup s obscured.path with
  | some _ => (s, none)
  | none => ((obscured.path, original) :: s, none)

/-- Embeds `memoryStore.Get` (store.go): look up by `obscured.Path`; a hit
returns a copy of the stored URL value and `true`. -/
def Get (s : MemStore) (obscured : URL) : Option URL :=
  memLookup s obscured.path

/-- Embeds `memoryStore.Remove` (store.go): delete the binding for
`obscured.Path`; always a nil error (deletion of an absent key is a no-op). -/
def Remove (s : MemStore) (obscured : URL) : MemStore :=
  List.filter (fun p => ¬ p.1 = obscured.path) s

/-- Embeds `memoryStore.Clear` (store.go): delete every binding. -/
def Clear (_s : MemStore) : MemStore := []

/-- Embeds `memoryStore.Size` (store.go): count the bindings. -/
def Size (s : MemStore) : Nat := s.length

/-- Embeds `memoryStore.Load` (store.go): `Put` each pair of the batch. -/
def Load (s : MemStore) (batch : List (URL × URL)) : MemStore :=
  batch.foldl (fun acc p => (Put acc p.1 p.2).1) s

end memoryStore

/-- Embeds Go `url.URL.String()` for URLs built from the five modelled
components: `scheme:` when a scheme is present, `//host` when a host is
present, then path, `?query`, `#fragment`. -/
def URL.render (u : URL) : String :=
  (if u.scheme = "" then "" else u.scheme ++ ":") ++
  (if u.host = "" then "" else "//" ++ u.host) ++
  u.path ++
  (if u.query = "" then "" else "?" ++ u.query) ++
  (if u.fragment = "" then "" else "#" ++ u.fragment)

/-- Whether a string contains an ASCII control character, which Go
`net/url.Parse` rejects ("net/url: invalid control character in URL"). -/
def containsCtl (s : String) : Bool :=
  s.toList.any (fun c => c.toNat < 0x20 || c.toNat = 0x7f)

/-- Splits `l` at the first occurrence of the character `c`: the part before
and, when `c` occurs, the part after it. -/
def splitAtChar (l : List Char) (c : Char) : List Char × Option (List Char) :=
  match l with
  | [] => ([], none)
  | x :: xs =>
      if x = c then ([], some xs)
      else
        let (pre, post) := splitAtChar xs c
        (x :: pre, post)

/-- Embeds Go `net/url.Parse` restricted to the URL shapes this library
exercises (no percent-escapes, user info, or opaque forms): reject control
characters, split the fragment at the first `#`, detect a `scheme://host`
head, split the query at the first `?`, and keep the remainder as the path.
`none` models a non-nil error. -/
def urlParse (s : String) : Option URL :=
  if containsCtl s then none
  else
    let (beforeFrag, fragPart) := splitAtChar s.toList '#'
    let fragment := String.mk (fragPart.getD [])
    let (beforeQuery, queryPart) := splitAtChar beforeFrag '?'
    let query := String.mk (queryPart.getD [])
    let (schemeStr, hostPath) :=
      match splitAtChar beforeQuery ':' with
      | (sch, some rest) =>
          if sch ≠ [] ∧ sch.all (fun c => c.isAlpha ∨ c.isDigit ∨ c = '+' ∨ c = '-' ∨ c = '.') ∧
              (sch.headD ' ').isAlpha then
            (String.mk sch, rest)
          else ("", beforeQuery)
      | (_, none) => ("", beforeQuery)
    match hostPath with
    | '/' :: '/' :: rest =>
        let (host, path) := (rest.takeWhile (fun c => ¬ c = '/'), rest.dropWhile (fun c => ¬ c = '/'))
        some ⟨schemeStr, String.mk host, String.mk path, query, fragment⟩
    | other =>
        some ⟨schemeStr, "", String.mk other, query, fragment⟩

/-- Go `strings.ReplaceAll(s, old, new)` on character lists, for a non-empty
pattern: replace non-overlapping occurrences left to right. -/
def replaceAllNE (s pat rep : List Char) : List Char :=
  match s with
  | [] => []
  | x :: xs =>
      if 0 < pat.length ∧ pat.isPrefixOf (x :: xs) then
        rep ++ replaceAllNE (List.drop pat.length (x :: xs)) pat rep
      else
        x :: replaceAllNE xs pat rep
termination_by s.length
decreasing_by
  · simp only [List.length_drop, List.length_cons]
    omega
  · simp

/-- Embeds Go `strings.ReplaceAll(s, old, new)`: with an empty pattern the
replacement is inserted before every character and at the end; otherwise
non-overlapping occurrences are replaced left to right. -/
def replaceAll (s pat rep : String) : String :=
  if pat = "" then
    String.mk (rep.toList ++ (s.toList.map (fun c => c :: rep.toList)).flatten)
  else
    String.mk (replaceAllNE s.toList pat.toList rep.toList)

/-- Embeds `defaultParseHeader` (handler.go): the header value is taken as
the full URL. -/
def defaultParseHeader (header : String) : String := header

/-- The index of the last occurrence of `c` in `l`, if any. -/
def lastIndexOfChar (l : List Char) (c : Char) : Option Nat :=
  match l with
  | [] => none
  | x :: xs =>
      match lastIndexOfChar xs c with
      | some i => some (i + 1)
      | none => if x = c then some 0 else none

/-- Embeds `parseLinkHeader` (handler.go), the Go regexp `^<(.+)>.*` with
RE2 leftmost-first submatch semantics: the value must start with `<`; the
greedy `(.+)` (in which `.` matches any character except newline) captures
everything up to the last `>` that is reachable without crossing a newline
and is preceded by at least one captured character; no match yields `""`. -/
def parseLinkHeader (header : String) : String :=
  match header.toList with
  | '<' :: rest =>
      let reach := rest.takeWhile (fun c => ¬ c = '\n')
      match lastIndexOfChar reach '>' with
      | some j => if 1 ≤ j then String.mk (rest.take j) else ""
      | none => ""
  | _ => ""

/-- The fixed failure message of `ErrFailedRemoval` (handler.go; "form" is
the source's own typo). -/
def ErrFailedRemovalMsg : String := "obscurer: unable to remove URL form store"

/-- The fixed failure message of `ErrLocationHeaderFailure` (handler.go). -/
def ErrLocationHeaderFailureMsg : String := "obscurer: unable to obscure 'Location' header"

/-- The fixed failure message of `ErrContentLocationHeaderFailure` (handler.go). -/
def ErrContentLocationHeaderFailureMsg : String := "obscurer: unable to obscure 'Content-Location' header"

/-- The fixed failure message of `ErrLinkHeaderFailure` (handler.go). -/
def ErrLinkHeaderFailureMsg : String := "obscurer: unable to obscure 'Link' header"

/-- A write against the underlying (transport) `http.ResponseWriter`. -/
inductive WEvent where
  | writeHeader (code : Nat)
  | write (body : String)
deriving DecidableEq, Repr

/-- Whether an underlying write is a status write (`WriteHeader`). -/
def WEvent.isStatusWrite : WEvent → Bool
  | WEvent.writeHeader _ => true
  | WEvent.write _ => false

/-- Embeds the buffering `responseWriter` (response_writer.go, the variant
with body capture used by `handler.ServeHTTP`): the captured status (Go zero
value 0 when never set) and the captured body (last write wins). -/
structure responseWriter where
  status : Nat
  body : String
deriving DecidableEq, Repr

namespace responseWriter

/-- Embeds `responseWriter.WriteHeader`: record the status; the returned
list is what this call writes to the underlying writer (nothing). -/
def WriteHeader (rw : responseWriter) (code : Nat) : responseWriter × List WEvent :=
  ({ rw with status := code }, [])

/-- Embeds `responseWriter.Write`: overwrite the captured body, report its
length and a nil error; the returned list is what this call writes to the
underlying writer (nothing). -/
def Write (rw : responseWriter) (b : String) : responseWriter × List WEvent × Nat :=
  ({ rw with body := b }, [], b.length)

/-- Embeds `responseWriter.Do`: flush to the underlying writer — the status
first, only when one was set (`rw.status != 0`), then the body, only when
non-empty (`len(rw.body) > 0`). -/
def Do (rw : responseWriter) : List WEvent :=
  (if rw.status ≠ 0 then [WEvent.writeHeader rw.status] else []) ++
  (if 0 < rw.body.length then [WEvent.write rw.body] else [])

end responseWriter

/-- Embeds Go `http.Error(w, msg, 500)` applied to the buffering writer:
delete `Content-Length`, set `Content-Type` and `X-Content-Type-Options`,
then `WriteHeader(500)` and a body write of the message plus a newline
(both captured, overwriting whatever was there). -/
def httpError (h : Headers) (_rw : responseWriter) (msg : String) :
    Headers × responseWriter :=
  let h1 := Headers.del h "Content-Length"
  let h2 := Headers.set h1 "Content-Type" "text/plain; charset=utf-8"
  let h3 := Headers.set h2 "X-Content-Type-Options" "nosniff"
  (h3, { status := 500, body := msg ++ "\n" })

/-- The result of one `obscureHeader` call: the store, the response header
set, and whether a non-nil error was returned. -/
structure ObscureOutcome where
  store : MemStore
  headers : Headers
  err : Bool
deriving DecidableEq

namespace handler

/-- Embeds `handler.obscureHeader` (handler.go): read the header, parse the
URL portion with the supplied parser, return nil early when the header is
empty, fail on a `url.Parse` error, otherwise splice the obscured URL into
the header value with `strings.ReplaceAll`, set the header, and `Put` the
mapping (`md5Obscurer.Obscure` never returns nil, so the splice always
happens; `memoryStore.Put` always returns a nil error). -/
def obscureHeader (store : MemStore) (h : Headers) (key : String)
    (parse : String → String) : ObscureOutcome :=
  let header := Headers.get h key
  let parsedHeader := parse header
  if header = "" then ⟨store, h, false⟩
  else
    match urlParse parsedHeader with
    | none => ⟨store, h, true⟩
    | some u =>
        let obscured := md5Obscurer.Obscure u
        let h2 := Headers.set h key (replaceAll header (URL.render u) (URL.render obscured))
        let (store2, putErr) := memoryStore.Put store obscured u
        ⟨store2, h2, putErr.isSome⟩

/-- One header block of `handler.ServeHTTP`: call `obscureHeader` and, on a
non-nil error, issue `http.Error` with that header's fixed 500 message — and
then fall through to the next block (there is no early return). -/
def headerStep (key : String) (parse : String → String) (failMsg : String)
    (st : MemStore × Headers × responseWriter) : MemStore × Headers × responseWriter :=
  let r := obscureHeader st.1 st.2.1 key parse
  if r.err then
    let (h2, rw2) := httpError r.headers st.2.2 failMsg
    (r.store, h2, rw2)
  else
    (r.store, r.headers, st.2.2)

/-- The response post-processing of `handler.ServeHTTP` after the 404 check:
the three header blocks in source order — `Location`, `Content-Location`,
`Link` — each executed unconditionally. -/
def serveHeaderSteps (st : MemStore × Headers × responseWriter) :
    MemStore × Headers × responseWriter :=
  headerStep "Link" parseLinkHeader ErrLinkHeaderFailureMsg
    (headerStep "Content-Location" defaultParseHeader ErrContentLocationHeaderFailureMsg
      (headerStep "Location" defaultParseHeader ErrLocationHeaderFailureMsg st))

/-- The net effect of the wrapped handler on the buffering writer: a header
mutation, the last status it set with `WriteHeader` (if any), and the last
body it wrote (if any) — `responseWriter` keeps only the last of each. -/
structure InnerEffect where
  headerChanges : Headers → Headers
  status : Option Nat
  body : Option String

/-- The observable outcome of `handler.ServeHTTP`: the final store, the
final response header set, and the writes flushed to the underlying writer. -/
structure ServeResult where
  store : MemStore
  headers : Headers
  events : List WEvent

/-- Embeds `handler.ServeHTTP` (handler.go) over the in-memory store:
deobscure the request URL through the store when a mapping exists; delegate
to the wrapped handler against the buffering writer; on a captured 404,
`store.Remove(r.URL)` — note `r.URL` is the possibly already-deobscured URL
(`memoryStore.Remove` always returns nil, so the removal-failure 500 branch
is unreachable here); run the three header blocks; finally the deferred
`rw.Do()` flushes status and body. -/
def ServeHTTP (store : MemStore) (inner : URL → InnerEffect) (reqURL : URL)
    (h0 : Headers) : ServeResult :=
  let rURL := match memoryStore.Get store reqURL with
    | some unobscured => unobscured
    | none => reqURL
  let eff := inner rURL
  let h1 := eff.headerChanges h0
  let rw1 : responseWriter := { status := eff.status.getD 0, body := eff.body.getD "" }
  let store1 := if rw1.status = 404 then memoryStore.Remove store rURL else store
  let (store2, h2, rw2) := serveHeaderSteps (store1, h1, rw1)
  ⟨store2, h2, responseWriter.Do rw2⟩

end handler

/-- The URL parsed from "/hey/der", the original URL of the repository's
tests. -/
def heyDerURL : URL := ⟨"", "", "/hey/der", "", ""⟩

/-- The URL parsed from the empty string: every component empty. -/
def emptyURL : URL := ⟨"", "", "", "", ""⟩

/-- An obscured request URL with path "/obscured". -/
def obscuredReqURL : URL := ⟨"", "", "/obscured", "", ""⟩

/-- A store holding the single mapping /obscured -> /hey/der. -/
def c1Store : MemStore := [("/obscured", heyDerURL)]

/-- A wrapped handler that responds 404 with the default not-found body and
no headers, as `http.ServeMux` does for an unknown path. -/
def inner404 : URL → handler.InnerEffect :=
  fun _ => ⟨id, some 404, some "404 page not found\n"⟩

/-- A wrapped handler that sets a malformed `Location` header (a control
character, which `url.Parse` rejects) and a malformed `Link` header (whose
extracted URL is that same control character), then status 200. -/
def innerTwoBadHeaders : URL → handler.InnerEffect :=
  fun _ =>
    ⟨fun h => Headers.set (Headers.set h "Location" "\x0c") "Link" "<\x0c>",
     some 200, none⟩

/-- A URL with path "/a". -/
def slashA : URL := ⟨"", "", "/a", "", ""⟩

/-- A URL with path "/ab". -/
def slashAB : URL := ⟨"", "", "/ab", "", ""⟩

/-! ## Supporting lemmas -/

/-- Sanity anchor: the MD5 digest of the empty message is the published
constant d41d8cd98f00b204e9800998ecf8427e. -/
theorem md5Digest_nil :
    md5Digest [] =
      [0xd4, 0x1d, 0x8c, 0xd9, 0x8f, 0x00, 0xb2, 0x04,
       0xe9, 0x80, 0x09, 0x98, 0xec, 0xf8, 0x42, 0x7e] := by
  decide

/-- Searching for one key is unaffected by filtering out a different key. -/
theorem find?_filter_ne {α : Type} (l : List (String × α)) (k k2 : String)
    (hne : ¬ k2 = k) :
    List.find? (fun p => p.1 = k2) (List.filter (fun p => ¬ p.1 = k) l) =
      List.find? (fun p => p.1 = k2) l := by
  induction l with
  | nil => rfl
  | cons x xs ih =>
      by_cases hx : x.1 = k
      · have hx2 : ¬ x.1 = k2 := by
          intro h2
          exact hne (h2 ▸ hx)
        rw [List.filter_cons_of_neg (by simpa using hx),
          List.find?_cons_of_neg xs (by simpa using hx2), ih]
      · rw [List.filter_cons_of_pos (by simpa using hx)]
        by_cases hx2 : x.1 = k2
        · rw [List.find?_cons_of_pos _ (by simpa using hx2),
            List.find?_cons_of_pos _ (by simpa using hx2)]
        · rw [List.find?_cons_of_neg _ (by simpa using hx2),
            List.find?_cons_of_neg _ (by simpa using hx2), ih]

/-- `Headers.get` of a key other than the one just set is unchanged. -/
theorem Headers.get_set_ne (h : Headers) (k k2 v : String) (hne : ¬ k2 = k) :
    Headers.get (Headers.set h k v) k2 = Headers.get h k2 := by
  have hkk2 : ¬ (k, v).1 = k2 := fun hh => hne hh.symm
  unfold Headers.get Headers.set
  rw [List.find?_cons_of_neg _ (by simpa using hkk2), find?_filter_ne h k k2 hne]

/-- `Headers.get` of a key other than the one just deleted is unchanged. -/
theorem Headers.get_del_ne (h : Headers) (k k2 : String) (hne : ¬ k2 = k) :
    Headers.get (Headers.del h k) k2 = Headers.get h k2 := by
  unfold Headers.get Headers.del
  rw [find?_filter_ne h k k2 hne]

/-- After removing a key from the store, looking it up finds nothing. -/
theorem memLookup_filter_self (s : MemStore) (k : String) :
    memLookup (List.filter (fun p => ¬ p.1 = k) s) k = none := by
  induction s with
  | nil => rfl
  | cons x xs ih =>
      by_cases hx : x.1 = k
      · simpa [memLookup, List.filter, hx] using ih
      · simpa [memLookup, List.filter, List.find?, hx] using ih

/-- If a character does not occur in a list, `lastIndexOfChar` finds nothing. -/
theorem lastIndexOfChar_eq_none (l : List Char) (c : Char) (h : ¬ c ∈ l) :
    lastIndexOfChar l c = none := by
  induction l with
  | nil => rfl
  | cons x xs ih =>
      have hx : ¬ x = c := fun hh => h (hh ▸ List.mem_cons_self x xs)
      have hxs : ¬ c ∈ xs := fun hh => h (List.mem_cons_of_mem x hh)
      simp [lastIndexOfChar, ih hxs, hx]

/-- `lastIndexOfChar` finds the occurrence of `c` separating `a` from a
`c`-free tail `b`. -/
theorem lastIndexOfChar_append (a b : List Char) (c : Char) (hb : ¬ c ∈ b) :
    lastIndexOfChar (a ++ c :: b) c = some a.length := by
  induction a with
  | nil => simp [lastIndexOfChar, lastIndexOfChar_eq_none b c hb]
  | cons x xs ih => simp [lastIndexOfChar, ih]

/-! ## Claim theorems -/

/-- C5: for every URL `P` and store state in which the obscured key is not
yet bound, `Put(obscure(P), P)` succeeds (nil error) and a subsequent
`Get(obscure(P))` returns `(P, true)` with `P` unchanged in all five
components (the `URL` record equality covers scheme, host, path, query and
fragment). -/
theorem put_get_roundtrip (s : MemStore) (P : URL)
    (habs : memLookup s (md5Obscurer.Obscure P).path = none) :
    (memoryStore.Put s (md5Obscurer.Obscure P) P).2 = none ∧
    memoryStore.Get (memoryStore.Put s (md5Obscurer.Obscure P) P).1
      (md5Obscurer.Obscure P) = some P := by
  unfold memoryStore.Put memoryStore.Get
  rw [habs]
  refine ⟨rfl, ?_⟩
  unfold memLookup
  rw [List.find?_cons_of_pos _ (by simp)]

/-- Witness for `put_get_roundtrip` at the empty store and the test URL
/hey/der. -/
theorem put_get_roundtrip_witness :
    memLookup ([] : MemStore) (md5Obscurer.Obscure heyDerURL).path = none ∧
    ((memoryStore.Put [] (md5Obscurer.Obscure heyDerURL) heyDerURL).2 = none ∧
      memoryStore.Get (memoryStore.Put [] (md5Obscurer.Obscure heyDerURL) heyDerURL).1
        (md5Obscurer.Obscure heyDerURL) = some heyDerURL) :=
  ⟨rfl, put_get_roundtrip [] heyDerURL rfl⟩

/-- C6: from any store state in which key `K` is not yet bound, after
`Put(K, O1)` a second `Put(K, O2)` returns a nil error, leaves the store
untouched, and the stored original for `K` is still `O1`, even when `O2`
differs from `O1`. -/
theorem put_idempotent (s : MemStore) (K O1 O2 : URL)
    (habs : memLookup s K.path = none) :
    (memoryStore.Put (memoryStore.Put s K O1).1 K O2).2 = none ∧
    (memoryStore.Put (memoryStore.Put s K O1).1 K O2).1 =
      (memoryStore.Put s K O1).1 ∧
    memoryStore.Get (memoryStore.Put (memoryStore.Put s K O1).1 K O2).1 K =
      some O1 := by
  unfold memoryStore.Put memoryStore.Get
  rw [habs]
  have hfound : memLookup ((K.path, O1) :: s) K.path = some O1 := by
    unfold memLookup
    rw [List.find?_cons_of_pos _ (by simp)]
  rw [hfound]
  exact ⟨rfl, rfl, hfound⟩

/-- Witness for `put_idempotent`: the empty store, key obscure(/hey/der),
first original /hey/der, second (different) original /a. -/
theorem put_idempotent_witness :
    memLookup ([] : MemStore) (md5Obscurer.Obscure heyDerURL).path = none ∧
    ((memoryStore.Put (memoryStore.Put [] (md5Obscurer.Obscure heyDerURL) heyDerURL).1
        (md5Obscurer.Obscure heyDerURL) slashA).2 = none ∧
      (memoryStore.Put (memoryStore.Put [] (md5Obscurer.Obscure heyDerURL) heyDerURL).1
        (md5Obscurer.Obscure heyDerURL) slashA).1 =
        (memoryStore.Put [] (md5Obscurer.Obscure heyDerURL) heyDerURL).1 ∧
      memoryStore.Get (memoryStore.Put
          (memoryStore.Put [] (md5Obscurer.Obscure heyDerURL) heyDerURL).1
          (md5Obscurer.Obscure heyDerURL) slashA).1 (md5Obscurer.Obscure heyDerURL) =
        some heyDerURL) :=
  ⟨rfl, put_idempotent [] (md5Obscurer.Obscure heyDerURL) heyDerURL slashA rfl⟩

/-- C10: the in-memory store keys mappings solely by the obscured URL's path
component — `Put`, `Get` and `Remove` applied to two obscured URLs with
equal paths but arbitrary other components coincide; moreover a `Put` under
one key URL is visible to a `Get` under the other, and a `Remove` under one
deletes the mapping as seen from the other. -/
theorem store_keyed_by_path_only (s : MemStore) (k1 k2 orig : URL)
    (hpath : k1.path = k2.path) :
    memoryStore.Put s k1 orig = memoryStore.Put s k2 orig ∧
    memoryStore.Get s k1 = memoryStore.Get s k2 ∧
    memoryStore.Remove s k1 = memoryStore.Remove s k2 ∧
    (memLookup s k1.path = none →
      memoryStore.Get (memoryStore.Put s k1 orig).1 k2 = some orig) ∧
    memoryStore.Get (memoryStore.Remove s k1) k2 = none := by
  refine ⟨?_, ?_, ?_, ?_, ?_⟩
  · unfold memoryStore.Put
    rw [hpath]
  · unfold memoryStore.Get
    rw [hpath]
  · unfold memoryStore.Remove
    rw [hpath]
  · intro habs
    unfold memoryStore.Put memoryStore.Get
    rw [habs]
    unfold memLookup
    rw [List.find?_cons_of_pos _ (by simp [hpath])]
  · unfold memoryStore.Remove memoryStore.Get
    rw [hpath]
    exact memLookup_filter_self s k2.path

/-- Witness for `store_keyed_by_path_only`: two obscured URLs sharing the
path /p but with different scheme, host, query and fragment, over the empty
store. -/
theorem store_keyed_by_path_only_witness :
    (⟨"http", "a.example", "/p", "x=1", "f1"⟩ : URL).path =
      (⟨"https", "b.example", "/p", "y=2", "f2"⟩ : URL).path ∧
    (memoryStore.Put [] ⟨"http", "a.example", "/p", "x=1", "f1"⟩ heyDerURL =
      memoryStore.Put [] ⟨"https", "b.example", "/p", "y=2", "f2"⟩ heyDerURL ∧
    memoryStore.Get [] ⟨"http", "a.example", "/p", "x=1", "f1"⟩ =
      memoryStore.Get [] ⟨"https", "b.example", "/p", "y=2", "f2"⟩ ∧
    memoryStore.Remove [] ⟨"http", "a.example", "/p", "x=1", "f1"⟩ =
      memoryStore.Remove [] ⟨"https", "b.example", "/p", "y=2", "f2"⟩ ∧
    (memLookup [] (⟨"http", "a.example", "/p", "x=1", "f1"⟩ : URL).path = none →
      memoryStore.Get (memoryStore.Put [] ⟨"http", "a.example", "/p", "x=1", "f1"⟩ heyDerURL).1
        ⟨"https", "b.example", "/p", "y=2", "f2"⟩ = some heyDerURL) ∧
    memoryStore.Get (memoryStore.Remove [] ⟨"http", "a.example", "/p", "x=1", "f1"⟩)
      ⟨"https", "b.example", "/p", "y=2", "f2"⟩ = none) :=
  ⟨rfl, store_keyed_by_path_only [] ⟨"http", "a.example", "/p", "x=1", "f1"⟩
    ⟨"https", "b.example", "/p", "y=2", "f2"⟩ heyDerURL rfl⟩

/-- C9: for each of the three rewrite-target headers — `Location`,
`Content-Location` and `Link`, each with its parser and failure message as
wired in `handler.ServeHTTP` — if the header is absent or empty (Go
`Header.Get` returns `""` in both cases), the header block returns no
error and leaves the store, the response header set and the buffered
response writer unchanged: a skip, not an error. -/
theorem empty_header_skip (store : MemStore) (h : Headers) (w : responseWriter) :
    (Headers.get h "Location" = "" →
      handler.obscureHeader store h "Location" defaultParseHeader = ⟨store, h, false⟩ ∧
      handler.headerStep "Location" defaultParseHeader ErrLocationHeaderFailureMsg
        (store, h, w) = (store, h, w)) ∧
    (Headers.get h "Content-Location" = "" →
      handler.obscureHeader store h "Content-Location" defaultParseHeader = ⟨store, h, false⟩ ∧
      handler.headerStep "Content-Location" defaultParseHeader
        ErrContentLocationHeaderFailureMsg (store, h, w) = (store, h, w)) ∧
    (Headers.get h "Link" = "" →
      handler.obscureHeader store h "Link" parseLinkHeader = ⟨store, h, false⟩ ∧
      handler.headerStep "Link" parseLinkHeader ErrLinkHeaderFailureMsg
        (store, h, w) = (store, h, w)) := by
  refine ⟨fun hl => ?_, fun hc => ?_, fun hk => ?_⟩
  all_goals
    constructor
    · simp [handler.obscureHeader, *]
    · simp [handler.headerStep, handler.obscureHeader, *]

/-- Witness for `empty_header_skip`: a header set carrying none of the three
rewrite targets. -/
theorem empty_header_skip_witness :
    (Headers.get [("X-Other", "v")] "Location" = "" ∧
      handler.obscureHeader [] [("X-Other", "v")] "Location" defaultParseHeader =
        ⟨[], [("X-Other", "v")], false⟩) ∧
    (Headers.get [("X-Other", "v")] "Link" = "" ∧
      handler.headerStep "Link" parseLinkHeader ErrLinkHeaderFailureMsg
        ([], [("X-Other", "v")], ⟨0, ""⟩) = ([], [("X-Other", "v")], ⟨0, ""⟩)) :=
  ⟨⟨rfl, ((empty_header_skip [] [("X-Other", "v")] ⟨0, ""⟩).1 rfl).1⟩,
   ⟨rfl, ((empty_header_skip [] [("X-Other", "v")] ⟨0, ""⟩).2.2 rfl).2⟩⟩

/-- C4: the response-capturing shim records a `WriteHeader(status)` call by
storing the status and transmits nothing to the underlying writer, and on
flush (`Do`), if the wrapped handler never set a status (the captured
status is still the zero value 0), no status write is performed on the
underlying writer — only the body write, and only when a body was captured.
This is the body-capturing `responseWriter` used by `handler.ServeHTTP`. -/
theorem responseWriter_capture_and_flush (w : responseWriter) (code : Nat) :
    responseWriter.WriteHeader w code = ({ status := code, body := w.body }, []) ∧
    (w.status = 0 →
      responseWriter.Do w =
        (if 0 < w.body.length then [WEvent.write w.body] else []) ∧
      ∀ e ∈ responseWriter.Do w, e.isStatusWrite = false) := by
  refine ⟨rfl, fun h0 => ?_⟩
  have hdo : responseWriter.Do w =
      (if 0 < w.body.length then [WEvent.write w.body] else []) := by
    unfold responseWriter.Do
    rw [h0]
    simp
  refine ⟨hdo, fun e he => ?_⟩
  rw [hdo] at he
  by_cases hb : 0 < w.body.length
  · rw [if_pos hb] at he
    simp only [List.mem_singleton] at he
    rw [he]
    rfl
  · rw [if_neg hb] at he
    exact absurd he (List.not_mem_nil e)

/-- Witness for `responseWriter_capture_and_flush`: a shim on which the
wrapped handler wrote a body but never a status. -/
theorem responseWriter_capture_and_flush_witness :
    responseWriter.WriteHeader ⟨0, "hello"⟩ 301 = (⟨301, "hello"⟩, []) ∧
    ((⟨0, "hello"⟩ : responseWriter).status = 0 ∧
      responseWriter.Do ⟨0, "hello"⟩ = [WEvent.write "hello"] ∧
      ∀ e ∈ responseWriter.Do ⟨0, "hello"⟩, e.isStatusWrite = false) :=
  ⟨(responseWriter_capture_and_flush ⟨0, "hello"⟩ 301).1,
   rfl,
   by
    have h := (responseWriter_capture_and_flush ⟨0, "hello"⟩ 301).2 rfl
    exact ⟨h.1, h.2⟩⟩

/-- C2 (divergence evaluation): the reference obscurer's output path is not
a fixed-width rendering of a hash and it reveals the original path.  Because
`md5Obscurer.Obscure` calls `hash.Sum` on a hash that was never written to,
the output path is `/` followed by the hex of the trimmed original path
bytes followed by the hex of the MD5 digest of the empty message: for input
path `/a` the output is 35 characters and begins with hex("a") = "61"; for
`/ab` it is 37 characters; the widths differ and the original path can be
read back out of the output. -/
theorem obscure_path_not_fixed_width :
    (md5Obscurer.Obscure slashA).path = "/61d41d8cd98f00b204e9800998ecf8427e" ∧
    (md5Obscurer.Obscure slashAB).path = "/6162d41d8cd98f00b204e9800998ecf8427e" ∧
    (md5Obscurer.Obscure slashA).path.length = 35 ∧
    (md5Obscurer.Obscure slashAB).path.length = 37 ∧
    (md5Obscurer.Obscure slashA).path.length ≠ (md5Obscurer.Obscure slashAB).path.length ∧
    (md5Obscurer.Obscure slashA).path =
      "/" ++ hexOfBytes (strBytes "a") ++ hexOfBytes (md5Digest []) := by
  refine ⟨by decide, by decide, by decide, by decide, by decide, by decide⟩

/-- C1 (divergence evaluation): with the store holding the mapping
/obscured -> /hey/der and a request to /obscured whose wrapped handler
responds 404, `handler.ServeHTTP` leaves the store unchanged — the removal
uses the already-deobscured request URL `/hey/der` as the key, so a
subsequent `Get` for the obscured URL still finds the mapping instead of
not-found. -/
theorem eviction_404_misses_mapping :
    memoryStore.Get c1Store obscuredReqURL = some heyDerURL ∧
    (handler.ServeHTTP c1Store inner404 obscuredReqURL []).store = c1Store ∧
    memoryStore.Get (handler.ServeHTTP c1Store inner404 obscuredReqURL []).store
      obscuredReqURL = some heyDerURL ∧
    (handler.ServeHTTP c1Store inner404 obscuredReqURL []).events =
      [WEvent.writeHeader 404, WEvent.write "404 page not found\n"] := by
  refine ⟨by decide, by decide, by decide, by decide⟩

/-- `memoryStore.Put` always returns a nil error, whether or not the key was
already bound. -/
theorem memoryStore_Put_err (s : MemStore) (o u : URL) :
    (memoryStore.Put s o u).2 = none := by
  unfold memoryStore.Put
  cases memLookup s o.path <;> rfl

/-- C7 counterexample: on the Link header value `<a>b>` the greedy pattern
captures up to the last `>` — the extraction is `a>b`, not the
claim's everything-up-to-the-first-`>` `a`; and on a non-empty Link header
the pattern does not match (`x`), `obscureHeader` returns no error at all
(the empty extraction parses as the empty URL), so no 500 Link-failure
response is produced. -/
theorem link_claim_counterexample :
    parseLinkHeader "<a>b>" = "a>b" ∧
    ¬ parseLinkHeader "<a>b>" = "a" ∧
    (handler.obscureHeader [] [("Link", "x")] "Link" parseLinkHeader).err = false := by
  refine ⟨by decide, by decide, by decide⟩

/-- C7 as amended: for a matching Link header `<a>b` (with `a` non-empty and
newline-free and `b` free of `>` and newline) the extraction captures
everything up to the last `>`; and for a non-empty Link header the pattern
does not match, extraction yields the empty string, which `url.Parse`
accepts as the empty URL, so `obscureHeader` returns no error: it stores a
mapping for the obscured empty URL and rewrites the header by splicing with
an empty search string instead of failing. -/
theorem link_extraction_amended (a b : List Char) (st : MemStore) (hs : Headers)
    (ha : a ≠ []) (hna : ¬ '\n' ∈ a) (hgb : ¬ '>' ∈ b) (hnb : ¬ '\n' ∈ b)
    (hne : ¬ Headers.get hs "Link" = "")
    (hm : parseLinkHeader (Headers.get hs "Link") = "") :
    parseLinkHeader (String.mk ('<' :: (a ++ '>' :: b))) = String.mk a ∧
    (handler.obscureHeader st hs "Link" parseLinkHeader).err = false ∧
    (handler.obscureHeader st hs "Link" parseLinkHeader).store =
      (memoryStore.Put st (md5Obscurer.Obscure emptyURL) emptyURL).1 ∧
    (handler.obscureHeader st hs "Link" parseLinkHeader).headers =
      Headers.set hs "Link" (replaceAll (Headers.get hs "Link") (URL.render emptyURL)
        (URL.render (md5Obscurer.Obscure emptyURL))) := by
  have hreach : (a ++ '>' :: b).takeWhile (fun c => ¬ c = '\n') = a ++ '>' :: b := by
    rw [List.takeWhile_eq_self_iff]
    intro x hx
    have hxn : ¬ x = '\n' := by
      intro hcontra
      subst hcontra
      rcases List.mem_append.mp hx with hxa | hxb
      · exact hna hxa
      · rcases List.mem_cons.mp hxb with hgt | hxb2
        · exact absurd hgt (by decide)
        · exact hnb hxb2
    simpa using hxn
  have hextract : parseLinkHeader (String.mk ('<' :: (a ++ '>' :: b))) = String.mk a := by
    show (match ('<' :: (a ++ '>' :: b)) with
      | '<' :: rest =>
          let reach := rest.takeWhile (fun c => ¬ c = '\n')
          match lastIndexOfChar reach '>' with
          | some j => if 1 ≤ j then String.mk (rest.take j) else ""
          | none => ""
      | _ => "") = String.mk a
    simp only [hreach, lastIndexOfChar_append a b '>' hgb]
    rw [if_pos (Nat.one_le_iff_ne_zero.mpr (by simpa using ha)), List.take_left]
  have hu : urlParse (parseLinkHeader (Headers.get hs "Link")) = some emptyURL := by
    rw [hm]
    rfl
  have hobs : handler.obscureHeader st hs "Link" parseLinkHeader =
      ⟨(memoryStore.Put st (md5Obscurer.Obscure emptyURL) emptyURL).1,
        Headers.set hs "Link" (replaceAll (Headers.get hs "Link") (URL.render emptyURL)
          (URL.render (md5Obscurer.Obscure emptyURL))),
        (memoryStore.Put st (md5Obscurer.Obscure emptyURL) emptyURL).2.isSome⟩ := by
    unfold handler.obscureHeader
    rw [if_neg hne, hu]
  refine ⟨hextract, ?_, ?_, ?_⟩
  · rw [hobs]
    simp [memoryStore_Put_err st (md5Obscurer.Obscure emptyURL) emptyURL]
  · rw [hobs]
  · rw [hobs]

/-- Witness for `link_extraction_amended`: the Link value `<a>b>; r` (whose
greedy extraction is `a>b`) and the non-matching non-empty Link value
`nope` over the empty store. -/
theorem link_extraction_amended_witness :
    parseLinkHeader "<a>b>; r" = "a>b" ∧
    (handler.obscureHeader [] [("Link", "nope")] "Link" parseLinkHeader).err = false ∧
    (handler.obscureHeader [] [("Link", "nope")] "Link" parseLinkHeader).store =
      (memoryStore.Put [] (md5Obscurer.Obscure emptyURL) emptyURL).1 ∧
    (handler.obscureHeader [] [("Link", "nope")] "Link" parseLinkHeader).headers =
      Headers.set [("Link", "nope")] "Link" (replaceAll (Headers.get [("Link", "nope")] "Link")
        (URL.render emptyURL) (URL.render (md5Obscurer.Obscure emptyURL))) :=
  link_extraction_amended ['a', '>', 'b'] [';', ' ', 'r'] [] [("Link", "nope")]
    (by decide) (by decide) (by decide) (by decide) (by decide) (by decide)

/-- C3 counterexample: with both the `Location` header and the `Link` header
malformed (each contains a control character `url.Parse` rejects), the
response flushed by `handler.ServeHTTP` carries the `Link` failure message —
the failure on `Location`, the first header in the fixed order, neither won
nor aborted the remaining header processing; the later `Link` block still
ran and overwrote the buffered 500 body. -/
theorem first_error_wins_counterexample :
    (handler.ServeHTTP [] innerTwoBadHeaders ⟨"", "", "/this/is/the/way", "", ""⟩ []).events =
      [WEvent.writeHeader 500, WEvent.write (ErrLinkHeaderFailureMsg ++ "\n")] ∧
    ¬ ErrLinkHeaderFailureMsg ++ "\n" = ErrLocationHeaderFailureMsg ++ "\n" := by
  refine ⟨by decide, by decide⟩

/-- C3 as amended: the three rewrite-target headers are always evaluated in
the fixed order `Location`, `Content-Location`, `Link` regardless of which
are present, but an earlier error does not abort the remaining header
processing: each failing block writes its own 500 message into the buffered
response and the next block still runs, so when several headers are
malformed the last error in that order is the one left in the flushed
response.  Concretely, whenever `Location` is present and malformed,
`Content-Location` absent, and `Link` present and malformed, the buffered
writer ends with status 500 and the `Link` failure body. -/
theorem errors_do_not_abort_last_wins (st : MemStore) (h : Headers)
    (w : responseWriter)
    (hl : ¬ Headers.get h "Location" = "")
    (hlp : urlParse (defaultParseHeader (Headers.get h "Location")) = none)
    (hc : Headers.get h "Content-Location" = "")
    (hk : ¬ Headers.get h "Link" = "")
    (hkp : urlParse (parseLinkHeader (Headers.get h "Link")) = none) :
    (handler.serveHeaderSteps (st, h, w)).1 = st ∧
    (handler.serveHeaderSteps (st, h, w)).2.2 =
      ⟨500, ErrLinkHeaderFailureMsg ++ "\n"⟩ := by
  have hstep1 : handler.headerStep "Location" defaultParseHeader
      ErrLocationHeaderFailureMsg (st, h, w) =
      (st, (httpError h w ErrLocationHeaderFailureMsg).1,
        (httpError h w ErrLocationHeaderFailureMsg).2) := by
    unfold handler.headerStep handler.obscureHeader
    rw [if_neg hl, hlp]
    rfl
  set h1 : Headers := (httpError h w ErrLocationHeaderFailureMsg).1 with hh1
  have hgetCL : Headers.get h1 "Content-Location" = "" := by
    rw [hh1]
    unfold httpError
    rw [Headers.get_set_ne _ _ _ _ (by decide), Headers.get_set_ne _ _ _ _ (by decide),
      Headers.get_del_ne _ _ _ (by decide)]
    exact hc
  have hgetLink : Headers.get h1 "Link" = Headers.get h "Link" := by
    rw [hh1]
    unfold httpError
    rw [Headers.get_set_ne _ _ _ _ (by decide), Headers.get_set_ne _ _ _ _ (by decide),
      Headers.get_del_ne _ _ _ (by decide)]
  have hstep2 : handler.headerStep "Content-Location" defaultParseHeader
      ErrContentLocationHeaderFailureMsg
      (st, h1, (httpError h w ErrLocationHeaderFailureMsg).2) =
      (st, h1, (httpError h w ErrLocationHeaderFailureMsg).2) := by
    unfold handler.headerStep handler.obscureHeader
    rw [if_pos hgetCL]
    rfl
  have hstep3 : handler.headerStep "Link" parseLinkHeader ErrLinkHeaderFailureMsg
      (st, h1, (httpError h w ErrLocationHeaderFailureMsg).2) =
      (st, (httpError h1 (httpError h w ErrLocationHeaderFailureMsg).2
          ErrLinkHeaderFailureMsg).1,
        (httpError h1 (httpError h w ErrLocationHeaderFailureMsg).2
          ErrLinkHeaderFailureMsg).2) := by
    unfold handler.headerStep handler.obscureHeader
    rw [hgetLink, if_neg hk, hkp]
    rfl
  unfold handler.serveHeaderSteps
  rw [hstep1, hstep2, hstep3]
  exact ⟨rfl, rfl⟩

/-- Witness for `errors_do_not_abort_last_wins`: a header set with a
control-character `Location` value and a Link value whose extraction is a
control character, over the empty store and a fresh buffered writer. -/
theorem errors_do_not_abort_last_wins_witness :
    (¬ Headers.get [("Location", "\x0c"), ("Link", "<\x0c>")] "Location" = "" ∧
      urlParse (defaultParseHeader
        (Headers.get [("Location", "\x0c"), ("Link", "<\x0c>")] "Location")) = none ∧
      Headers.get [("Location", "\x0c"), ("Link", "<\x0c>")] "Content-Location" = "" ∧
      ¬ Headers.get [("Location", "\x0c"), ("Link", "<\x0c>")] "Link" = "" ∧
      urlParse (parseLinkHeader
        (Headers.get [("Location", "\x0c"), ("Link", "<\x0c>")] "Link")) = none) ∧
    (handler.serveHeaderSteps ([], [("Location", "\x0c"), ("Link", "<\x0c>")], ⟨200, ""⟩)).1 =
      ([] : MemStore) ∧
    (handler.serveHeaderSteps ([], [("Location", "\x0c"), ("Link", "<\x0c>")], ⟨200, ""⟩)).2.2 =
      ⟨500, ErrLinkHeaderFailureMsg ++ "\n"⟩ :=
  ⟨⟨by decide, by decide, by decide, by decide, by decide⟩,
    errors_do_not_abort_last_wins [] [("Location", "\x0c"), ("Link", "<\x0c>")] ⟨200, ""⟩
      (by decide) (by decide) (by decide) (by decide) (by decide)⟩

/-- C8: `Obscure` returns a new URL whose scheme, host, query and fragment
equal those of the input; only the path is replaced, and the new path is a
function of the input path alone — the leading slashes are stripped before
the transformation and a single leading slash is re-applied after (the hex
rendering never begins with `/`); two URLs with equal paths obscure to
equal paths; and the input URL object is not mutated (the Go code writes
only through `result`, a copy of `*url`). -/
theorem obscure_preserves_components (u v : URL) (hpath : u.path = v.path) :
    (md5Obscurer.Obscure u).scheme = u.scheme ∧
    (md5Obscurer.Obscure u).host = u.host ∧
    (md5Obscurer.Obscure u).query = u.query ∧
    (md5Obscurer.Obscure u).fragment = u.fragment ∧
    (md5Obscurer.Obscure u).path =
      "/" ++ hexOfBytes (goHashSum (strBytes (trimLeftSlash u.path))) ∧
    (md5Obscurer.Obscure u).path = (md5Obscurer.Obscure v).path ∧
    md5Obscurer.ObscureInputAfter u = u := by
  refine ⟨rfl, rfl, rfl, rfl, rfl, ?_, rfl⟩
  unfold md5Obscurer.Obscure
  rw [hpath]

/-- Witness for `obscure_preserves_components`: a full URL and a bare URL
sharing the path /hey/der. -/
theorem obscure_preserves_components_witness :
    (⟨"http", "a.example", "/hey/der", "x=1", "top"⟩ : URL).path = heyDerURL.path ∧
    ((md5Obscurer.Obscure ⟨"http", "a.example", "/hey/der", "x=1", "top"⟩).scheme = "http" ∧
      (md5Obscurer.Obscure ⟨"http", "a.example", "/hey/der", "x=1", "top"⟩).host = "a.example" ∧
      (md5Obscurer.Obscure ⟨"http", "a.example", "/hey/der", "x=1", "top"⟩).query = "x=1" ∧
      (md5Obscurer.Obscure ⟨"http", "a.example", "/hey/der", "x=1", "top"⟩).fragment = "top" ∧
      (md5Obscurer.Obscure ⟨"http", "a.example", "/hey/der", "x=1", "top"⟩).path =
        "/" ++ hexOfBytes (goHashSum (strBytes (trimLeftSlash "/hey/der"))) ∧
      (md5Obscurer.Obscure ⟨"http", "a.example", "/hey/der", "x=1", "top"⟩).path =
        (md5Obscurer.Obscure heyDerURL).path ∧
      md5Obscurer.ObscureInputAfter ⟨"http", "a.example", "/hey/der", "x=1", "top"⟩ =
        ⟨"http", "a.example", "/hey/der", "x=1", "top"⟩) :=
  ⟨rfl, obscure_preserves_components ⟨"http", "a.example", "/hey/der", "x=1", "top"⟩
    heyDerURL rfl⟩
